import Mathlib

/-!
# Verification of the hoyodeck Data Synchronization & Caching Controller

A shallow embedding of the data-controller core of the repository
(`plugin/src/services/data-controller.ts`, the game controllers'
`fetchAll` in `base-game-controller.ts`, the error predicates in
`api/types/hsr.ts`, the structural auth validation from
`packages/shared`, and the consumer-side error display from
`base-action.ts`), together with proofs of the specified properties.

Modelling conventions:
* JavaScript strings are embedded as `List Char` (`JsString`); template
  concatenation becomes `++`, `String.prototype.startsWith` becomes the
  recursive `startsWith` below.
* JavaScript `Map` objects (and plain `Record` objects) are embedded as
  association lists with `Map`-faithful operations: `mapGet` returns the
  first binding, `mapSet` overwrites in place or appends, `mapDelete`
  removes the binding.
* Asynchronous code is embedded by making the settled outcome of each
  awaited operation an explicit input (`FetchOutcome`, `FetchEnv`), and
  listener callbacks are embedded as emitted events (`DCEvent`) rather
  than function values, since the controller never depends on a
  listener's return value (thrown listener errors are caught and logged).
-/

namespace HoyoDeck

/-- Embedding of a JavaScript string as its sequence of characters. -/
abbrev JsString := List Char

/-- Coerce a Lean string literal into the `JsString` embedding. -/
def js (s : String) : JsString := s.data

/-- `s.startsWith(pre)` from JavaScript: `pre` is a prefix of `s`. -/
def startsWith : JsString → JsString → Bool
  | _, [] => true
  | [], _ :: _ => false
  | c :: cs, p :: ps => p == c && startsWith cs ps

/-- `map.get(k)` on a JavaScript `Map` embedded as an association list. -/
def mapGet {β : Type} : List (JsString × β) → JsString → Option β
  | [], _ => none
  | (k', v) :: rest, k => if k' = k then some v else mapGet rest k

/-- `map.set(k, v)`: overwrite an existing binding in place, else append. -/
def mapSet {β : Type} : List (JsString × β) → JsString → β → List (JsString × β)
  | [], k, v => [(k, v)]
  | (k', v') :: rest, k, v =>
    if k' = k then (k, v) :: rest else (k', v') :: mapSet rest k v

/-- `map.delete(k)`: remove the binding for `k`. -/
def mapDelete {β : Type} (m : List (JsString × β)) (k : JsString) :
    List (JsString × β) :=
  m.filter (fun p => !(p.1 == k))

/-- `map.has(k)` / the JavaScript `in` operator. -/
def mapContains {β : Type} (m : List (JsString × β)) (k : JsString) : Bool :=
  (mapGet m k).isSome

/-- `Object.keys(m)` / iteration over a `Map`'s keys. -/
def mapKeys {β : Type} (m : List (JsString × β)) : List JsString :=
  m.map (·.1)

/-- `map.values()`. -/
def mapValues {β : Type} (m : List (JsString × β)) : List β :=
  m.map (·.2)

-- ─── Association-list lemmas ─────────────────────────────────────

theorem mapGet_filter_key {β : Type} (f : JsString → Bool)
    (l : List (JsString × β)) (k : JsString) :
    mapGet (l.filter (fun p => f p.1)) k = if f k then mapGet l k else none := by
  induction l with
  | nil => simp [mapGet]
  | cons hd tl ih =>
    by_cases hk : hd.1 = k
    · subst hk
      by_cases hf : f hd.1 <;> simp [mapGet, hf, ih]
    · by_cases hf : f hd.1 <;> simp [mapGet, hf, hk, ih]

theorem mapGet_map_value {β γ : Type} (g : β → γ)
    (l : List (JsString × β)) (k : JsString) :
    mapGet (l.map (fun p => (p.1, g p.2))) k = (mapGet l k).map g := by
  induction l with
  | nil => simp [mapGet]
  | cons hd tl ih =>
    by_cases hk : hd.1 = k <;> simp [mapGet, hk, ih]

theorem mapGet_mapDelete {β : Type} (l : List (JsString × β)) (k k' : JsString) :
    mapGet (mapDelete l k) k' = if k = k' then none else mapGet l k' := by
  unfold mapDelete
  have h := mapGet_filter_key (fun s => !(s == k)) l k'
  by_cases hk : k = k'
  · subst hk; simpa using h
  · have : (k' == k) = false := by
      simp [Ne.symm hk]
    simpa [this, hk] using h

theorem mapSet_ne_nil {β : Type} (l : List (JsString × β)) (k : JsString) (v : β) :
    mapSet l k v ≠ [] := by
  cases l with
  | nil => simp [mapSet]
  | cons hd tl =>
    unfold mapSet
    by_cases hk : hd.1 = k <;> simp [hk]

theorem filter_ne_nil_of_ne_nil {β : Type} (p : β → Bool) (l : List β)
    (h : l.filter p ≠ []) : l ≠ [] := by
  intro hl; subst hl; simp at h

theorem mapGet_eq_of_mem_of_nodup {β : Type} (l : List (JsString × β))
    (hnd : (mapKeys l).Nodup) (p : JsString × β) (hp : p ∈ l) :
    mapGet l p.1 = some p.2 := by
  induction l with
  | nil => simp at hp
  | cons hd tl ih =>
    simp only [mapKeys, List.map_cons, List.nodup_cons] at hnd
    rcases List.mem_cons.mp hp with h | h
    · subst h; simp [mapGet]
    · have hne : hd.1 ≠ p.1 := by
        intro he
        exact hnd.1 (he ▸ List.mem_map_of_mem (·.1) h)
      simp [mapGet, hne, ih hnd.2 h]

-- ─── String-key lemmas for account-scoped invalidation ───────────

/-- The id contains no `':'` separator (true of the UUID account ids the
repository actually stores). -/
def colonFree (s : JsString) : Bool := s.all (fun c => !(c == ':'))

theorem startsWith_key_self (a dt : JsString) :
    startsWith (a ++ ':' :: dt) (a ++ [':']) = true := by
  induction a with
  | nil => simp [startsWith]
  | cons c cs ih => simpa [startsWith] using ih

theorem startsWith_key_ne (a : JsString) :
    ∀ (b dt : JsString), colonFree a = true → colonFree b = true → a ≠ b →
      startsWith (b ++ ':' :: dt) (a ++ [':']) = false := by
  induction a with
  | nil =>
    intro b dt _ hb hne
    cases b with
    | nil => exact absurd rfl hne
    | cons y ys =>
      have hy : y ≠ ':' := by
        have := (List.all_eq_true.mp hb) y (by simp)
        simpa using this
      simp [startsWith, Ne.symm hy]
  | cons x xs ih =>
    intro b dt ha hb hne
    cases b with
    | nil =>
      have hx : x ≠ ':' := by
        have := (List.all_eq_true.mp ha) x (by simp)
        simpa using this
      simp [startsWith, hx]
    | cons y ys =>
      have hxs : colonFree xs = true := by
        simp only [colonFree, List.all_cons, Bool.and_eq_true] at ha
        exact ha.2
      have hys : colonFree ys = true := by
        simp only [colonFree, List.all_cons, Bool.and_eq_true] at hb
        exact hb.2
      by_cases hxy : x = y
      · subst hxy
        have hne' : xs ≠ ys := by
          intro h; exact hne (by rw [h])
        simpa [startsWith] using ih ys dt hxs hys hne'
      · have hxy' : (x == y) = false := by simp [hxy]
        simp [startsWith, hxy']

-- ─── Data model (from `packages/shared/src/types` and
--     `plugin/src/services/data-controller.types.ts`) ─────────────

/-- `HoyoAuth` from `packages/shared/src/types/auth.ts`: three required
cookie fields and three optional ones.  Fields are `Option` because the
runtime value validated by `isValidAuth` comes from untyped settings
storage and may lack any of them. -/
structure HoyoAuth where
  ltoken_v2 : Option JsString
  ltuid_v2 : Option JsString
  ltmid_v2 : Option JsString
  cookie_token_v2 : Option JsString
  account_mid_v2 : Option JsString
  account_id_v2 : Option JsString
deriving DecidableEq

/-- A required `z.string().min(1)` field of `HoyoAuthSchema`: present and
non-empty. -/
def reqField : Option JsString → Bool
  | some s => !s.isEmpty
  | none => false

/-- `isValidAuth` from `packages/shared/src/cookies/auth.ts`:
`HoyoAuthSchema.safeParse(auth).success`, i.e. the three required fields
are present non-empty strings (the other three fields are optional). -/
def isValidAuth (a : HoyoAuth) : Bool :=
  reqField a.ltoken_v2 && reqField a.ltuid_v2 && reqField a.ltmid_v2

/-- `HoyoAccount` from `packages/shared/src/types/account.ts`. -/
structure HoyoAccount where
  id : JsString
  name : JsString
  auth : HoyoAuth
  authStatus : JsString
  uids : List (JsString × JsString)
deriving DecidableEq

/-- The authenticated API client: `new HoyolabClient(auth)` memoizes the
credential bundle it was constructed with (the HTTP transport behind it
is an external collaborator). -/
structure HoyolabClient where
  auth : HoyoAuth
deriving DecidableEq

/-- A JavaScript `Error` value as the controller observes it: either a
`HoyolabApiError` (from `api/types/hsr.ts`, carrying the API's
machine-readable `retcode`) or any other `Error`. -/
inductive JsError where
  | hoyolabApiError (retcode : Int) (message : JsString)
  | plainError (message : JsString)
deriving DecidableEq

/-- A value thrown by a rejected fetch promise: JavaScript may throw an
`Error` instance or any other value (carried here via its
`String(reason)` rendering). -/
inductive Thrown where
  | errorVal (e : JsError)
  | otherVal (rendering : JsString)
deriving DecidableEq

/-- `reason instanceof Error ? reason : new Error(String(reason))` from
`base-game-controller.ts`. -/
def normalizeReason : Thrown → JsError
  | .errorVal e => e
  | .otherVal s => .plainError s

/-- `isAuthError` from `api/types/hsr.ts`: a `HoyolabApiError` with
retcode `INVALID_REQUEST (-100)`, `NOT_LOGGED_IN (-101)` or
`LOGIN_REQUIRED (10001)`. -/
def isAuthError : JsError → Bool
  | .hoyolabApiError rc _ => rc == -100 || rc == -101 || rc == 10001
  | .plainError _ => false

/-- `isRateLimitError` from `api/types/hsr.ts`: a `HoyolabApiError` with
retcode `VISIT_TOO_FREQUENTLY (-110)`. -/
def isRateLimitError : JsError → Bool
  | .hoyolabApiError rc _ => rc == -110
  | .plainError _ => false

/-- The spec's error taxonomy (§7 of the spec). -/
inductive ErrorKind where
  | authError
  | rateLimitError
  | genericError
deriving DecidableEq

/-- The spec's classification of a transport error into the taxonomy,
realized through the source predicates `isAuthError` / `isRateLimitError`
(the order in which the consumer `showDataError` tests them). -/
def classify (e : JsError) : ErrorKind :=
  if isAuthError e then .authError
  else if isRateLimitError e then .rateLimitError
  else .genericError

/-- `DataEntry<T>` from `data-controller.types.ts`: the stored entry for
a single fetch, tagged `ok`/`error`, stamped with `fetchedAt`.  The
`error` variant carries the `Error` value itself. -/
inductive DataEntry (α : Type) where
  | ok (data : α) (fetchedAt : Nat)
  | error (error : JsError) (fetchedAt : Nat)
deriving DecidableEq

/-- The `fetchedAt` stamp of an entry. -/
def entryFetchedAt {α : Type} : DataEntry α → Nat
  | .ok _ ts => ts
  | .error _ ts => ts

/-- What a consumer renders for an entry: `showDataError` from
`base-action.ts` shows "Setup Auth" for auth errors, "Rate Limited" for
rate limits, a generic error otherwise, and nothing for `ok` entries. -/
inductive UiOutcome where
  | setupAuth
  | rateLimited
  | genericShown
deriving DecidableEq

/-- `showDataError` from `base-action.ts` (the consumer-side
classification of a stored entry's error). -/
def showDataError {α : Type} : DataEntry α → Option UiOutcome
  | .ok _ _ => none
  | .error err _ =>
    some (if isAuthError err then .setupAuth
          else if isRateLimitError err then .rateLimited
          else .genericShown)

/-- The rendering each taxonomy kind maps to. -/
def uiFor : ErrorKind → UiOutcome
  | .authError => .setupAuth
  | .rateLimitError => .rateLimited
  | .genericError => .genericShown

/-- `DataUpdate` from `data-controller.types.ts`: the payload passed to a
registration's listener. -/
structure DataUpdate (α : Type) where
  accountId : JsString
  dataType : JsString
  entry : DataEntry α
deriving DecidableEq

/-- `ActionRegistration` from `data-controller.types.ts`.  The listener
callback is embedded as emitted `DCEvent`s, not stored here: the
controller never branches on a listener's behavior (thrown listener
errors are caught and logged). -/
structure Registration where
  actionId : JsString
  accountId : JsString
  dataTypes : List JsString
deriving DecidableEq

/-- An observable action of the controller: a listener invocation, an
executed batch of fetch operations, or an account invalidation. -/
inductive DCEvent (α : Type) where
  | delivered (reg : Registration) (update : DataUpdate α)
  | fetched (accountId : JsString) (game : JsString) (dataTypes : List JsString)
  | invalidated (accountId : JsString)
deriving DecidableEq

/-- The settled outcome of one fetch operation's promise
(`Promise.allSettled` element). -/
inductive FetchOutcome (α : Type) where
  | fulfilled (data : α)
  | rejected (reason : Thrown)
deriving DecidableEq

/-- `GlobalSettings` from `packages/shared/src/types/settings.ts`
(restricted to the fields the data controller reads). -/
structure GlobalSettings where
  accounts : Option (List (JsString × HoyoAccount))
  bannerBadgePosition : Option JsString
  bannerBadgeLayout : Option JsString
  bannerBadgeFontSize : Option Nat
  disableAnimations : Option Bool
deriving DecidableEq

/-- The mutable state of `DataControllerImpl`
(`plugin/src/services/data-controller.ts`).  `pollTimer` records whether
the interval timer is armed; `polling` is the tick reentrancy guard. -/
structure DCState (α : Type) where
  store : List (JsString × DataEntry α)
  clientCache : List (JsString × HoyolabClient)
  registrations : List (JsString × Registration)
  pollTimer : Bool
  polling : Bool
  previousAccounts : Option (List (JsString × HoyoAccount))
  previousDisableAnimations : Bool
  previousBannerBadgePosition : JsString
  previousBannerBadgeLayout : JsString
  previousBannerBadgeFontSize : Nat
deriving DecidableEq

/-- The controller's state at plugin startup (field initializers of
`DataControllerImpl`). -/
def initialState (α : Type) : DCState α :=
  { store := []
    clientCache := []
    registrations := []
    pollTimer := false
    polling := false
    previousAccounts := none
    previousDisableAnimations := false
    previousBannerBadgePosition := js "center"
    previousBannerBadgeLayout := js "horizontal"
    previousBannerBadgeFontSize := 18 }

-- ─── Service Orchestrator (`base-game-controller.ts`) ────────────

/-- How one settled fetch operation becomes a `DataEntry`
(the body of the result loop in `fetchAll`): fulfilled values become
`ok` entries, rejections become `error` entries carrying the
(normalized) thrown error; both are stamped `fetchedAt := now`. -/
def settleEntry {α : Type} (now : Nat) : FetchOutcome α → DataEntry α
  | .fulfilled data => .ok data now
  | .rejected reason => .error (normalizeReason reason) now

/-- `fetchAll` from `base-game-controller.ts`.  The per-game fetcher
table is `fetchers` (its thunks are awaited I/O, so each is embedded as
its settled `FetchOutcome`); the entries whose key is in
`requestedTypes` are selected, awaited via `Promise.allSettled`, and
each settled result becomes a map entry.  The fetcher table is a
JavaScript `Map`, so its keys are distinct and the `results.set` loop
equals a per-entry map; `Date.now()` within one loop is embedded as the
single stamp `now`.  The function is total: no failure escapes it. -/
def fetchAll {α : Type} (fetchers : List (JsString × FetchOutcome α))
    (requestedTypes : List JsString) (now : Nat) :
    List (JsString × DataEntry α) :=
  let entries := fetchers.filter (fun p => requestedTypes.contains p.1)
  entries.map (fun p => (p.1, settleEntry now p.2))

-- ─── DataControllerImpl (`data-controller.ts`) ───────────────────

/-- `buildStoreKey`: the composite store key `accountId:dataType`. -/
def buildStoreKey (accountId dataType : JsString) : JsString :=
  accountId ++ ':' :: dataType

/-- `startPollingIfNeeded`: arm the interval timer unless it is already
armed or no registrations remain. -/
def startPollingIfNeeded {α : Type} (st : DCState α) : DCState α :=
  if st.pollTimer then st
  else if st.registrations.isEmpty then st
  else { st with pollTimer := true }

/-- `stopPolling`: clear the interval timer. -/
def stopPolling {α : Type} (st : DCState α) : DCState α :=
  if !st.pollTimer then st else { st with pollTimer := false }

/-- The identical-re-registration test in `register`:
`existing.dataTypes.length === registration.dataTypes.length` and an
index-wise `every` comparison. -/
def sameDataTypes (a b : List JsString) : Bool :=
  a.length == b.length && (a.zip b).all (fun p => p.1 == p.2)

/-- The cold-start replay of `register`: for every requested data type
with a cached entry, invoke the listener immediately with that entry. -/
def replayEvents {α : Type} (store : List (JsString × DataEntry α))
    (reg : Registration) : List (DCEvent α) :=
  reg.dataTypes.filterMap (fun dataType =>
    (mapGet store (buildStoreKey reg.accountId dataType)).map (fun entry =>
      DCEvent.delivered reg ⟨reg.accountId, dataType, entry⟩))

/-- `register` from `data-controller.ts`: skip when an existing
registration for the same `actionId` has the same account and the same
data-types list; otherwise store the registration, replay cached
entries, and start polling if needed. -/
def register {α : Type} (st : DCState α) (reg : Registration) :
    DCState α × List (DCEvent α) :=
  let skip :=
    match mapGet st.registrations reg.actionId with
    | some existing =>
      existing.accountId == reg.accountId
        && sameDataTypes existing.dataTypes reg.dataTypes
    | none => false
  if skip then (st, [])
  else
    let st1 := { st with
      registrations := mapSet st.registrations reg.actionId reg }
    (startPollingIfNeeded st1, replayEvents st1.store reg)

/-- `unregister` from `data-controller.ts`: drop the registration and
stop polling when none remain. -/
def unregister {α : Type} (st : DCState α) (actionId : JsString) : DCState α :=
  let st1 := { st with registrations := mapDelete st.registrations actionId }
  if st1.registrations.isEmpty then stopPolling st1 else st1

/-- `getClient` from `data-controller.ts`: `null` on invalid auth,
otherwise the memoized client, constructing and caching one only when
none is cached. -/
def getClient {α : Type} (st : DCState α) (account : HoyoAccount) :
    Option HoyolabClient × DCState α :=
  if !isValidAuth account.auth then (none, st)
  else
    match mapGet st.clientCache account.id with
    | some existing => (some existing, st)
    | none =>
      let client : HoyolabClient := ⟨account.auth⟩
      (some client, { st with clientCache := mapSet st.clientCache account.id client })

/-- `invalidateAccount` from `data-controller.ts`: drop the account's
cached client and every store entry whose key starts with
`accountId + ":"`. -/
def invalidateAccount {α : Type} (st : DCState α) (accountId : JsString) :
    DCState α :=
  { st with
    clientCache := mapDelete st.clientCache accountId
    store := st.store.filter (fun p => !startsWith p.1 (accountId ++ [':'])) }

/-- `authEqual` from `data-controller.ts`: field-by-field `===`
comparison of all six credential fields. -/
def authEqual (a b : HoyoAuth) : Bool :=
  a.ltoken_v2 == b.ltoken_v2
    && a.ltuid_v2 == b.ltuid_v2
    && a.ltmid_v2 == b.ltmid_v2
    && a.cookie_token_v2 == b.cookie_token_v2
    && a.account_mid_v2 == b.account_mid_v2
    && a.account_id_v2 == b.account_id_v2

/-- `renotifyAll` from `data-controller.ts`: re-push every cached entry
to every registration, over its own account and data types. -/
def renotifyAll {α : Type} (regs : List (JsString × Registration))
    (store : List (JsString × DataEntry α)) : List (DCEvent α) :=
  (mapValues regs).flatMap (fun reg =>
    reg.dataTypes.filterMap (fun dataType =>
      (mapGet store (buildStoreKey reg.accountId dataType)).map (fun entry =>
        DCEvent.delivered reg ⟨reg.accountId, dataType, entry⟩)))

/-- `notifyListeners` from `data-controller.ts`: deliver one entry to
every registration matching its account whose data types include the
key. -/
def notifyListeners {α : Type} (regs : List (JsString × Registration))
    (accountId dataType : JsString) (entry : DataEntry α) : List (DCEvent α) :=
  (mapValues regs).filterMap (fun reg =>
    if reg.accountId == accountId && reg.dataTypes.contains dataType then
      some (DCEvent.delivered reg ⟨accountId, dataType, entry⟩)
    else none)

/-- `dt.split(':')[0]`: the game id in front of a data-type key. -/
def gameOf (dataType : JsString) : JsString :=
  dataType.takeWhile (fun c => !(c == ':'))

/-- `getActiveAccountGames` from `data-controller.ts`: which accounts
and games have active subscriptions (a map of insertion-ordered sets). -/
def getActiveAccountGames {α : Type} (st : DCState α) :
    List (JsString × List JsString) :=
  st.registrations.foldl (fun result p =>
    let reg := p.2
    let games := (mapGet result reg.accountId).getD []
    let games2 := reg.dataTypes.foldl (fun gs dt =>
      let game := gameOf dt
      if gs.contains game then gs else gs ++ [game]) games
    mapSet result reg.accountId games2) []

/-- `getActiveDataTypes` from `data-controller.ts`: the set of data
types subscribed for one account and game. -/
def getActiveDataTypes {α : Type} (st : DCState α)
    (accountId game : JsString) : List JsString :=
  st.registrations.foldl (fun types p =>
    let reg := p.2
    if !(reg.accountId == accountId) then types
    else reg.dataTypes.foldl (fun ts dt =>
      if startsWith dt (game ++ [':']) then
        (if ts.contains dt then ts else ts ++ [dt])
      else ts) types) []

/-- The external collaborators one fetch pass needs: the global-settings
account lookup behind `resolveAccount`, the per-game fetcher tables with
their settled outcomes, and the clock. -/
structure FetchEnv (α : Type) where
  resolveAccount : JsString → Option HoyoAccount
  fetchers : JsString → List (JsString × FetchOutcome α)
  now : Nat

/-- `fetchAndNotify` from `data-controller.ts`: resolve the account and
client and the game UID (skipping with a log on failure), run the game
controller's `fetchAll`, then store each returned entry and notify the
matching listeners. -/
def fetchAndNotify {α : Type} (env : FetchEnv α) (st : DCState α)
    (accountId game : JsString) (dataTypes : List JsString) :
    DCState α × List (DCEvent α) :=
  match env.resolveAccount accountId with
  | none => (st, [])
  | some account =>
    match getClient st account with
    | (none, st1) => (st1, [])
    | (some _, st1) =>
      match mapGet account.uids game with
      | none => (st1, [])
      | some _ =>
        let results := fetchAll (env.fetchers game) dataTypes env.now
        let start := (st1, [DCEvent.fetched accountId game (mapKeys results)])
        results.foldl (fun acc p =>
          let key := buildStoreKey accountId p.1
          let st2 := { acc.1 with store := mapSet acc.1.store key p.2 }
          (st2, acc.2 ++ notifyListeners st2.registrations accountId p.1 p.2))
          start

/-- The result of one run of a tick's body: the state at the point the
body exited, the events it emitted, and whether it exited normally
(`ok := false` embeds an exception escaping the body). -/
structure TickOutcome (α : Type) where
  state : DCState α
  events : List (DCEvent α)
  ok : Bool

/-- `pollTick` from `data-controller.ts`: skip entirely when a tick is
already in flight; otherwise set the `polling` guard, run the body
inside `try`, and clear the guard in `finally` — on both the normal and
the exceptional exit.  The body is a parameter so the guard can be
proved correct for every body outcome, including failing ones. -/
def pollTick {α : Type} (body : DCState α → TickOutcome α) (st : DCState α) :
    DCState α × List (DCEvent α) :=
  if st.polling then (st, [])
  else
    let r := body { st with polling := true }
    ({ r.state with polling := false }, r.events)

/-- The concrete tick body from `pollTick`'s `try` block: enumerate the
active account/game pairs, and for every pair with a non-empty demanded
type set run `fetchAndNotify`.  `Promise.allSettled` over the pair
fetches is embedded as their sequential composition (one legal
event-loop linearization); it exits normally. -/
def pollTickBody {α : Type} (env : FetchEnv α) (st : DCState α) :
    TickOutcome α :=
  let pairs := (getActiveAccountGames st).flatMap (fun p =>
    p.2.map (fun game => (p.1, game)))
  let run := pairs.foldl (fun acc pair =>
    let typesNeeded := getActiveDataTypes acc.1 pair.1 pair.2
    if typesNeeded.isEmpty then acc
    else
      let step := fetchAndNotify env acc.1 pair.1 pair.2 typesNeeded
      (step.1, acc.2 ++ step.2)) (st, ([] : List (DCEvent α)))
  ⟨run.1, run.2, true⟩

-- ─── Configuration Diff Watcher (`onGlobalSettingsChanged`) ──────

/-- The account ids the diff pass deletes: present before, absent now. -/
def deletedAccountIds (oldAccounts newAccounts : List (JsString × HoyoAccount)) :
    List JsString :=
  (mapKeys oldAccounts).filter (fun id => !mapContains newAccounts id)

/-- The account ids the diff pass invalidates for credential changes:
present in both snapshots with `authEqual` false. -/
def authChangedIds (oldAccounts newAccounts : List (JsString × HoyoAccount)) :
    List JsString :=
  mapKeys (newAccounts.filter (fun p =>
    match mapGet oldAccounts p.1 with
    | none => false
    | some oldAccount => !authEqual oldAccount.auth p.2.auth))

/-- `onGlobalSettingsChanged` from `data-controller.ts` (the debounced
diff pass): snapshot the new accounts, invalidate deleted accounts, then
accounts whose credential fields changed; independently diff the four
rendering preferences and renotify every cached entry when any of them
changed. -/
def onGlobalSettingsChanged {α : Type} (st : DCState α)
    (settings : GlobalSettings) : DCState α × List (DCEvent α) :=
  let newAccounts := settings.accounts.getD []
  let oldAccounts := st.previousAccounts.getD []
  let st1 := { st with previousAccounts := some newAccounts }
  let deleted := deletedAccountIds oldAccounts newAccounts
  let st2 := deleted.foldl invalidateAccount st1
  let changed := authChangedIds oldAccounts newAccounts
  let st3 := changed.foldl invalidateAccount st2
  let newDisableAnimations := settings.disableAnimations.getD false
  let animChanged := newDisableAnimations != st.previousDisableAnimations
  let newBadgePosition := settings.bannerBadgePosition.getD (js "center")
  let newBadgeLayout := settings.bannerBadgeLayout.getD (js "horizontal")
  let newBadgeFontSize := settings.bannerBadgeFontSize.getD 18
  let badgeChanged := newBadgePosition != st.previousBannerBadgePosition
    || newBadgeLayout != st.previousBannerBadgeLayout
    || newBadgeFontSize != st.previousBannerBadgeFontSize
  let st4 := { st3 with
    previousDisableAnimations :=
      if animChanged then newDisableAnimations else st3.previousDisableAnimations
    previousBannerBadgePosition :=
      if badgeChanged then newBadgePosition else st3.previousBannerBadgePosition
    previousBannerBadgeLayout :=
      if badgeChanged then newBadgeLayout else st3.previousBannerBadgeLayout
    previousBannerBadgeFontSize :=
      if badgeChanged then newBadgeFontSize else st3.previousBannerBadgeFontSize }
  let renotify :=
    if animChanged || badgeChanged then renotifyAll st4.registrations st4.store
    else []
  (st4, deleted.map DCEvent.invalidated ++ changed.map DCEvent.invalidated
    ++ renotify)

-- ─── Operation sequences over the subscription registry ──────────

/-- One registry operation: a consumer registering or unregistering. -/
inductive RegOp where
  | registerOp (reg : Registration)
  | unregisterOp (actionId : JsString)

/-- Apply one registry operation to the controller state. -/
def applyOp {α : Type} (st : DCState α) : RegOp → DCState α
  | .registerOp reg => (register st reg).1
  | .unregisterOp actionId => unregister st actionId

/-- Apply a finite sequence of registry operations. -/
def applyOps {α : Type} (st : DCState α) (ops : List RegOp) : DCState α :=
  ops.foldl applyOp st

-- ─── Supporting lemmas ───────────────────────────────────────────

theorem mapGet_fetchAll {α : Type} (fetchers : List (JsString × FetchOutcome α))
    (req : List JsString) (now : Nat) (t : JsString) :
    mapGet (fetchAll fetchers req now) t
      = (if t ∈ req then (mapGet fetchers t).map (settleEntry now)
         else none) := by
  unfold fetchAll
  rw [mapGet_map_value, mapGet_filter_key]
  by_cases h : t ∈ req <;> simp [h]

theorem entryFetchedAt_settleEntry {α : Type} (now : Nat) (r : FetchOutcome α) :
    entryFetchedAt (settleEntry now r) = now := by
  cases r <;> rfl

-- ─── Claim theorems ──────────────────────────────────────────────

/-- Claim C5: for every client, uid and requested-types list, `fetchAll`
is a total function (it always resolves, never throws), and its result
holds, for exactly the requested types the game declares a fetcher for,
the settled entry of that type's own fetch operation — `ok` with the
data on success, `error` with the failure otherwise — stamped with the
`fetchedAt` timestamp; and the entry of a type depends only on that
type's own operation, so one operation's failure never removes or
alters a sibling's result. -/
theorem fetchAll_isolates_and_stamps {α : Type}
    (fetchers : List (JsString × FetchOutcome α)) (req : List JsString)
    (now : Nat) (t : JsString) :
    (mapGet (fetchAll fetchers req now) t
      = (if t ∈ req then (mapGet fetchers t).map (settleEntry now)
         else none))
    ∧ (∀ e, mapGet (fetchAll fetchers req now) t = some e →
        entryFetchedAt e = now)
    ∧ (∀ fetchers2 : List (JsString × FetchOutcome α),
        mapGet fetchers2 t = mapGet fetchers t →
        mapGet (fetchAll fetchers2 req now) t
          = mapGet (fetchAll fetchers req now) t) := by
  refine ⟨mapGet_fetchAll fetchers req now t, ?_, ?_⟩
  · intro e he
    rw [mapGet_fetchAll] at he
    by_cases hc : t ∈ req
    · rw [if_pos hc] at he
      obtain ⟨r, _, rfl⟩ := Option.map_eq_some'.mp he
      exact entryFetchedAt_settleEntry now r
    · simp [hc] at he
  · intro fetchers2 h
    rw [mapGet_fetchAll, mapGet_fetchAll, h]

/-- Witness for C5 at a concrete input: a one-fetcher table yields the
`ok` entry stamped with the call's timestamp. -/
theorem fetchAll_isolates_and_stamps_witness :
    entryFetchedAt (DataEntry.ok (7 : Nat) 5) = 5 :=
  (fetchAll_isolates_and_stamps
      [(js "gi:daily-note", FetchOutcome.fulfilled (7 : Nat))]
      [js "gi:daily-note"] 5 (js "gi:daily-note")).2.1
    (DataEntry.ok 7 5) (by decide)

/-- Counterexample to claim C1: the orchestrator's `fetchAll` does not
classify a failure into the `AuthError`/`RateLimitError`/`GenericError`
taxonomy and does not store a classified kind in the `Err` entry — it
stores the raw `Error` value itself.  Two failures with the same
classified kind (`GenericError`) produce different `Err` entries, which
is impossible if the entry carried (exactly) the classified kind; the
second conjunct exhibits the raw error stored in the entry. -/
theorem fetchAll_stores_raw_error_counterexample :
    classify (JsError.plainError (js "boom one"))
      = classify (JsError.plainError (js "boom two"))
    ∧ mapGet (fetchAll (α := Nat)
        [(js "gi:daily-note",
          FetchOutcome.rejected (Thrown.errorVal
            (JsError.plainError (js "boom one"))))]
        [js "gi:daily-note"] 0) (js "gi:daily-note")
      = some (DataEntry.error (JsError.plainError (js "boom one")) 0)
    ∧ fetchAll (α := Nat)
        [(js "gi:daily-note",
          FetchOutcome.rejected (Thrown.errorVal
            (JsError.plainError (js "boom one"))))]
        [js "gi:daily-note"] 0
      ≠ fetchAll (α := Nat)
        [(js "gi:daily-note",
          FetchOutcome.rejected (Thrown.errorVal
            (JsError.plainError (js "boom two"))))]
        [js "gi:daily-note"] 0 := by
  refine ⟨rfl, by decide, by decide⟩

/-- Claim C1, amended: for every fetch operation that fails inside a
Service Orchestrator's `fetchAll`, the resulting `Err` entry carries the
underlying transport error itself (normalized to an `Error` instance)
together with `fetchedAt`; the classification into the
`AuthError`/`RateLimitError`/`GenericError` taxonomy is performed by the
consumer (`showDataError`) on the carried error, using its
machine-readable `retcode` where available — `AuthError` for retcodes
`-100`/`-101`/`10001`, `RateLimitError` for `-110` — and defaulting to
`GenericError` (in particular for every non-`HoyolabApiError`
failure). -/
theorem fetchAll_error_classified_by_consumer {α : Type}
    (fetchers : List (JsString × FetchOutcome α)) (req : List JsString)
    (now : Nat) (t : JsString) (reason : Thrown) :
    mapGet fetchers t = some (FetchOutcome.rejected reason) →
    req.contains t = true →
    mapGet (fetchAll fetchers req now) t
      = some (DataEntry.error (normalizeReason reason) now)
    ∧ showDataError (α := α) (DataEntry.error (normalizeReason reason) now)
      = some (uiFor (classify (normalizeReason reason)))
    ∧ (∀ (rc : Int) (msg : JsString),
        classify (JsError.hoyolabApiError rc msg)
          = (if rc = -100 ∨ rc = -101 ∨ rc = 10001 then ErrorKind.authError
             else if rc = -110 then ErrorKind.rateLimitError
             else ErrorKind.genericError))
    ∧ (∀ msg : JsString, classify (JsError.plainError msg)
        = ErrorKind.genericError) := by
  intro hget hreq
  refine ⟨?_, ?_, ?_, fun _ => rfl⟩
  · have hmem : t ∈ req := by simpa using hreq
    rw [mapGet_fetchAll, if_pos hmem, hget]
    rfl
  · unfold showDataError classify uiFor
    by_cases h1 : isAuthError (normalizeReason reason)
    · simp [h1]
    · by_cases h2 : isRateLimitError (normalizeReason reason) <;> simp [h1, h2]
  · intro rc msg
    unfold classify isAuthError isRateLimitError
    by_cases h1 : rc = -100 ∨ rc = -101 ∨ rc = 10001
    · have : (rc == -100 || rc == -101 || rc == 10001) = true := by
        rcases h1 with h | h | h <;> simp [h]
      simp [this, h1]
    · have : (rc == -100 || rc == -101 || rc == 10001) = false := by
        push_neg at h1
        simp [h1.1, h1.2.1, h1.2.2]
      by_cases h2 : rc = -110 <;> simp [this, h1, h2]

/-- Witness for the amended C1: a rate-limited operation produces an
`Err` entry carrying the `HoyolabApiError` with retcode `-110`. -/
theorem fetchAll_error_classified_by_consumer_witness :
    mapGet (fetchAll (α := Nat)
      [(js "hsr:daily-note",
        FetchOutcome.rejected (Thrown.errorVal
          (JsError.hoyolabApiError (-110) (js "visit too frequently"))))]
      [js "hsr:daily-note"] 3) (js "hsr:daily-note")
    = some (DataEntry.error
        (JsError.hoyolabApiError (-110) (js "visit too frequently")) 3) :=
  (fetchAll_error_classified_by_consumer
      [(js "hsr:daily-note",
        FetchOutcome.rejected (Thrown.errorVal
          (JsError.hoyolabApiError (-110) (js "visit too frequently"))))]
      [js "hsr:daily-note"] 3 (js "hsr:daily-note")
      (Thrown.errorVal (JsError.hoyolabApiError (-110)
        (js "visit too frequently")))
      (by decide) (by decide)).1

-- ─── Sample data for witnesses and counterexamples ───────────────

/-- A structurally valid credential bundle. -/
def sampleAuth : HoyoAuth :=
  ⟨some (js "token"), some (js "uid"), some (js "mid"), none, none, none⟩

/-- A second, different structurally valid credential bundle. -/
def sampleAuth2 : HoyoAuth :=
  ⟨some (js "token2"), some (js "uid"), some (js "mid"), none, none, none⟩

/-- A controller state caching entries and clients for the two accounts
`"a"` and `"a:x"`, whose ids collide through the `accountId:dataType`
key encoding. -/
def collisionState : DCState Nat :=
  { initialState Nat with
    store := [(buildStoreKey (js "a") (js "gi:daily-note"), .ok 1 10),
              (buildStoreKey (js "a:x") (js "gi:daily-note"), .ok 2 20)]
    clientCache := [(js "a", ⟨sampleAuth⟩), (js "a:x", ⟨sampleAuth2⟩)] }

/-- A controller state caching entries for the colon-free accounts
`"acc1"` and `"acc2"` and a client for `"acc2"`. -/
def frameState : DCState Nat :=
  { initialState Nat with
    store := [(buildStoreKey (js "acc1") (js "gi:daily-note"), .ok 1 0),
              (buildStoreKey (js "acc2") (js "gi:daily-note"), .ok 2 0)]
    clientCache := [(js "acc2", ⟨sampleAuth⟩)] }

-- ─── Claim C2 ────────────────────────────────────────────────────

/-- Counterexample to claim C2: quantified over all opaque id strings,
`invalidateAccount` does not leave other accounts' entries untouched.
The store key is the string `accountId + ":" + dataType` and
invalidation removes every key with the string prefix `A + ":"`, so for
`A = "a"` and the distinct account `B = "a:x"`, B's cached entry (key
`"a:x:gi:daily-note"`) is deleted by `invalidateAccount(A)`. -/
theorem invalidateAccount_collision_counterexample :
    js "a" ≠ js "a:x"
    ∧ mapGet collisionState.store
        (buildStoreKey (js "a:x") (js "gi:daily-note"))
      = some (DataEntry.ok 2 20)
    ∧ mapGet (invalidateAccount collisionState (js "a")).store
        (buildStoreKey (js "a:x") (js "gi:daily-note"))
      = none := by
  refine ⟨by decide, by decide, by decide⟩

/-- Claim C2, amended: for distinct account ids that contain no `':'`
separator (true of the UUID v4 ids the repository actually assigns),
`invalidateAccount(A)` removes A's cached client and every store entry
keyed by A, and leaves every entry and the cached client of any other
account B unchanged.  (For ids containing `':'` the string-prefix match
on the composite key can delete entries of an account that extends
another by a colon-separated suffix, as the counterexample shows.) -/
theorem invalidateAccount_exact_blast_radius {α : Type} (st : DCState α)
    (a b dt dt2 : JsString)
    (ha : colonFree a = true) (hb : colonFree b = true) (hne : a ≠ b) :
    mapGet (invalidateAccount st a).store (buildStoreKey a dt) = none
    ∧ mapGet (invalidateAccount st a).clientCache a = none
    ∧ mapGet (invalidateAccount st a).store (buildStoreKey b dt2)
        = mapGet st.store (buildStoreKey b dt2)
    ∧ mapGet (invalidateAccount st a).clientCache b
        = mapGet st.clientCache b := by
  refine ⟨?_, ?_, ?_, ?_⟩
  · show mapGet (st.store.filter (fun p => !startsWith p.1 (a ++ [':'])))
      (buildStoreKey a dt) = none
    have h := mapGet_filter_key (fun k => !startsWith k (a ++ [':']))
      st.store (buildStoreKey a dt)
    rw [h]
    simp [buildStoreKey, startsWith_key_self]
  · show mapGet (mapDelete st.clientCache a) a = none
    rw [mapGet_mapDelete]
    simp
  · show mapGet (st.store.filter (fun p => !startsWith p.1 (a ++ [':'])))
      (buildStoreKey b dt2) = mapGet st.store (buildStoreKey b dt2)
    have h := mapGet_filter_key (fun k => !startsWith k (a ++ [':']))
      st.store (buildStoreKey b dt2)
    rw [h]
    simp [buildStoreKey, startsWith_key_ne a b dt2 ha hb hne]
  · show mapGet (mapDelete st.clientCache a) b = mapGet st.clientCache b
    rw [mapGet_mapDelete]
    simp [hne]

/-- Witness for the amended C2: invalidating `"acc1"` drops its own
entry and leaves `"acc2"`'s entry and client in place. -/
theorem invalidateAccount_exact_blast_radius_witness :
    mapGet (invalidateAccount frameState (js "acc1")).store
        (buildStoreKey (js "acc1") (js "gi:daily-note")) = none
    ∧ mapGet (invalidateAccount frameState (js "acc1")).store
        (buildStoreKey (js "acc2") (js "gi:daily-note"))
      = mapGet frameState.store (buildStoreKey (js "acc2") (js "gi:daily-note")) :=
  have h := invalidateAccount_exact_blast_radius frameState
    (js "acc1") (js "acc2") (js "gi:daily-note") (js "gi:daily-note")
    (by decide) (by decide) (by decide)
  ⟨h.1, h.2.2.1⟩

-- ─── Claim C10 ───────────────────────────────────────────────────

/-- Claim C10: when an account already has a memoized client `c`,
`getClient` returns `null` without evicting `c` if the account's auth
fails structural validation, and returns `c` itself (leaving the cache
untouched) if validation passes — with no condition relating the
account's current credentials to those `c` was constructed with, so a
client reflecting new credentials can only be constructed after an
invalidation removes `c`. -/
theorem getClient_returns_memoized {α : Type} (st : DCState α)
    (account : HoyoAccount) (c : HoyolabClient)
    (hc : mapGet st.clientCache account.id = some c) :
    (isValidAuth account.auth = false → getClient st account = (none, st))
    ∧ (isValidAuth account.auth = true → getClient st account = (some c, st)) := by
  constructor
  · intro h
    unfold getClient
    simp [h]
  · intro h
    unfold getClient
    simp [h, hc]

/-- Witness for C10: an account whose stored credentials differ from the
memoized client's construction credentials still receives the memoized
client, with the cache unchanged. -/
theorem getClient_returns_memoized_witness :
    sampleAuth2 ≠ sampleAuth
    ∧ getClient
        { initialState Nat with clientCache := [(js "acc1", ⟨sampleAuth⟩)] }
        ⟨js "acc1", js "Main", sampleAuth2, js "valid", []⟩
      = (some ⟨sampleAuth⟩,
         { initialState Nat with clientCache := [(js "acc1", ⟨sampleAuth⟩)] }) :=
  ⟨by decide,
   (getClient_returns_memoized
      { initialState Nat with clientCache := [(js "acc1", ⟨sampleAuth⟩)] }
      ⟨js "acc1", js "Main", sampleAuth2, js "valid", []⟩
      ⟨sampleAuth⟩ (by decide)).2 (by decide)⟩

-- ─── Claim C6 ────────────────────────────────────────────────────

theorem zip_self_all_beq (l : List JsString) :
    (l.zip l).all (fun p => p.1 == p.2) = true := by
  induction l with
  | nil => rfl
  | cons x xs ih => simp [List.zip, ih]

theorem sameDataTypes_self (l : List JsString) : sameDataTypes l l = true := by
  unfold sameDataTypes
  simp [zip_self_all_beq]

/-- Claim C6: re-registering with an `actionId` already registered for
the same `accountId` and the same (order-sensitive) `dataTypes` list is
a complete no-op: the state — registrations, store, poll timer — is
returned unchanged and no events (no replay notification, no fetch) are
emitted. -/
theorem register_identical_noop {α : Type} (st : DCState α)
    (reg existing : Registration)
    (hget : mapGet st.registrations reg.actionId = some existing)
    (hacc : existing.accountId = reg.accountId)
    (hdts : existing.dataTypes = reg.dataTypes) :
    register st reg = (st, []) := by
  unfold register
  rw [hget]
  simp [hacc, hdts, sameDataTypes_self]

/-- Witness for C6 at a concrete registered state. -/
theorem register_identical_noop_witness :
    register
      { initialState Nat with
        registrations := [(js "ctx1",
          ⟨js "ctx1", js "acc1", [js "gi:daily-note"]⟩)]
        pollTimer := true }
      ⟨js "ctx1", js "acc1", [js "gi:daily-note"]⟩
    = ({ initialState Nat with
        registrations := [(js "ctx1",
          ⟨js "ctx1", js "acc1", [js "gi:daily-note"]⟩)]
        pollTimer := true }, []) :=
  register_identical_noop _
    ⟨js "ctx1", js "acc1", [js "gi:daily-note"]⟩
    ⟨js "ctx1", js "acc1", [js "gi:daily-note"]⟩
    (by decide) rfl rfl

-- ─── Claim C3 ────────────────────────────────────────────────────

theorem startPollingIfNeeded_of_ne_nil {α : Type} (st : DCState α)
    (hne : st.registrations ≠ []) :
    (startPollingIfNeeded st).pollTimer = true
    ∧ (startPollingIfNeeded st).registrations = st.registrations := by
  unfold startPollingIfNeeded
  by_cases h1 : st.pollTimer
  · simp [h1]
  · have h2 : st.registrations.isEmpty = false := by
      simpa [List.isEmpty_iff] using hne
    simp [h1, h2]

/-- The poll-timer invariant: the timer is armed exactly when the
registration set is non-empty. -/
def timerInv {α : Type} (st : DCState α) : Prop :=
  st.pollTimer = !st.registrations.isEmpty

theorem register_preserves_timerInv {α : Type} (st : DCState α)
    (reg : Registration) (h : timerInv st) : timerInv (register st reg).1 := by
  unfold register
  set skip := (match mapGet st.registrations reg.actionId with
    | some existing =>
      existing.accountId == reg.accountId
        && sameDataTypes existing.dataTypes reg.dataTypes
    | none => false) with hskip
  by_cases hs : skip = true
  · simp only [hs, if_true]
    exact h
  · have hs' : skip = false := by simpa using hs
    simp only [hs', Bool.false_eq_true, if_false]
    have hne : mapSet st.registrations reg.actionId reg ≠ [] :=
      mapSet_ne_nil st.registrations reg.actionId reg
    have hstep := startPollingIfNeeded_of_ne_nil
      { st with registrations := mapSet st.registrations reg.actionId reg }
      hne
    unfold timerInv
    rw [hstep.1, hstep.2]
    simp [List.isEmpty_iff, hne]

theorem unregister_preserves_timerInv {α : Type} (st : DCState α)
    (actionId : JsString) (h : timerInv st) :
    timerInv (unregister st actionId) := by
  unfold unregister
  by_cases he : (mapDelete st.registrations actionId).isEmpty = true
  · simp only [he, if_true]
    unfold timerInv stopPolling
    by_cases ht : st.pollTimer <;> simp [ht, he]
  · have he' : (mapDelete st.registrations actionId).isEmpty = false := by
      simpa using he
    simp only [he', Bool.false_eq_true, if_false]
    unfold timerInv at h ⊢
    have hne : mapDelete st.registrations actionId ≠ [] := by
      simpa [List.isEmpty_iff] using he'
    have hsrc : st.registrations ≠ [] :=
      filter_ne_nil_of_ne_nil _ _ hne
    have hsrcE : st.registrations.isEmpty = false := by
      simpa [List.isEmpty_iff] using hsrc
    rw [hsrcE] at h
    simp only [he']
    simpa using h

theorem applyOps_preserves_timerInv {α : Type} (ops : List RegOp)
    (st : DCState α) (h : timerInv st) : timerInv (applyOps st ops) := by
  induction ops generalizing st with
  | nil => exact h
  | cons op rest ih =>
    refine ih (applyOp st op) ?_
    cases op with
    | registerOp reg => exact register_preserves_timerInv st reg h
    | unregisterOp actionId => exact unregister_preserves_timerInv st actionId h

/-- Claim C3: after any finite sequence of `register` and `unregister`
operations from the controller's startup state, the poll timer is armed
exactly when the registration set is non-empty — so unregistering the
last remaining registration stops the timer, and registering into an
empty set starts it. -/
theorem pollTimer_armed_iff_registered {α : Type} (ops : List RegOp) :
    (applyOps (initialState α) ops).pollTimer
      = !(applyOps (initialState α) ops).registrations.isEmpty :=
  applyOps_preserves_timerInv ops (initialState α) rfl

-- ─── Claim C4 ────────────────────────────────────────────────────

/-- Claim C4: a poll tick starting while a previous tick is in flight is
a complete no-op — the state (hence the store) is unchanged and no
events (hence no fetches) are emitted, with no queueing; and for every
body outcome, including a body that fails, a tick that did enter its
body leaves the in-flight guard cleared, so polling is never permanently
blocked. -/
theorem pollTick_guard_correct {α : Type} (st : DCState α)
    (body : DCState α → TickOutcome α) :
    (st.polling = true → pollTick body st = (st, []))
    ∧ (st.polling = false → (pollTick body st).1.polling = false) := by
  constructor
  · intro h
    unfold pollTick
    simp [h]
  · intro h
    unfold pollTick
    simp [h]

/-- A tick body that mutates nothing and exits exceptionally. -/
def failingBody {α : Type} : DCState α → TickOutcome α :=
  fun st => ⟨st, [], false⟩

/-- Witness for C4: a tick racing an in-flight tick is skipped whole,
and a tick whose body fails still clears the guard. -/
theorem pollTick_guard_correct_witness :
    pollTick (failingBody (α := Nat))
        { initialState Nat with polling := true }
      = ({ initialState Nat with polling := true }, [])
    ∧ (pollTick (failingBody (α := Nat)) (initialState Nat)).1.polling
      = false :=
  ⟨(pollTick_guard_correct { initialState Nat with polling := true }
      (failingBody (α := Nat))).1 rfl,
   (pollTick_guard_correct (initialState Nat)
      (failingBody (α := Nat))).2 rfl⟩

-- ─── Claim C9 ────────────────────────────────────────────────────

theorem delivered_mem_replayEvents {α : Type}
    (store : List (JsString × DataEntry α)) (reg r : Registration)
    (u : DataUpdate α) (h : DCEvent.delivered r u ∈ replayEvents store reg) :
    u.accountId = r.accountId ∧ u.dataType ∈ r.dataTypes := by
  unfold replayEvents at h
  rw [List.mem_filterMap] at h
  obtain ⟨dt, hdt, hmap⟩ := h
  obtain ⟨e, _, heq⟩ := Option.map_eq_some'.mp hmap
  injection heq with h1 h2
  subst h1
  subst h2
  exact ⟨rfl, hdt⟩

theorem delivered_mem_notifyListeners {α : Type}
    (regs : List (JsString × Registration)) (accountId dataType : JsString)
    (entry : DataEntry α) (r : Registration) (u : DataUpdate α)
    (h : DCEvent.delivered r u ∈ notifyListeners regs accountId dataType entry) :
    u.accountId = r.accountId ∧ u.dataType ∈ r.dataTypes := by
  unfold notifyListeners at h
  rw [List.mem_filterMap] at h
  obtain ⟨reg2, _, hif⟩ := h
  by_cases hc : (reg2.accountId == accountId
      && reg2.dataTypes.contains dataType) = true
  · rw [if_pos hc] at hif
    have heq := Option.some.inj hif
    injection heq with h1 h2
    subst h1
    subst h2
    simp only [Bool.and_eq_true, beq_iff_eq] at hc
    refine ⟨hc.1.symm, ?_⟩
    have := hc.2
    simpa using this
  · rw [if_neg hc] at hif
    exact absurd hif (by simp)

theorem delivered_mem_renotifyAll {α : Type}
    (regs : List (JsString × Registration))
    (store : List (JsString × DataEntry α)) (r : Registration)
    (u : DataUpdate α) (h : DCEvent.delivered r u ∈ renotifyAll regs store) :
    u.accountId = r.accountId ∧ u.dataType ∈ r.dataTypes := by
  unfold renotifyAll at h
  rw [List.mem_flatMap] at h
  obtain ⟨reg2, _, hmem⟩ := h
  rw [List.mem_filterMap] at hmem
  obtain ⟨dt, hdt, hmap⟩ := hmem
  obtain ⟨e, _, heq⟩ := Option.map_eq_some'.mp hmap
  injection heq with h1 h2
  subst h1
  subst h2
  exact ⟨rfl, hdt⟩

/-- Claim C9: every listener invocation — the fan-out after a store
write (`notifyListeners`), the cold-start replay during `register`, and
a preference `renotifyAll` — passes an update whose `accountId` equals
the receiving registration's `accountId` and whose `dataType` is one of
that registration's requested `dataTypes`. -/
theorem listener_updates_match_subscription {α : Type} (st : DCState α)
    (reg : Registration) (accountId dataType : JsString)
    (entry : DataEntry α) (r : Registration) (u : DataUpdate α) :
    (DCEvent.delivered r u ∈ (register st reg).2 →
      u.accountId = r.accountId ∧ u.dataType ∈ r.dataTypes)
    ∧ (DCEvent.delivered r u
        ∈ notifyListeners st.registrations accountId dataType entry →
      u.accountId = r.accountId ∧ u.dataType ∈ r.dataTypes)
    ∧ (DCEvent.delivered r u ∈ renotifyAll st.registrations st.store →
      u.accountId = r.accountId ∧ u.dataType ∈ r.dataTypes) := by
  refine ⟨?_, fun h => delivered_mem_notifyListeners _ _ _ _ _ _ h,
    fun h => delivered_mem_renotifyAll _ _ _ _ h⟩
  intro h
  simp only [register] at h
  split at h
  · simp at h
  · exact delivered_mem_replayEvents _ _ _ _ h

/-- Witness for C9: a concrete fan-out delivery matches the receiving
registration's account and one of its requested data types. -/
theorem listener_updates_match_subscription_witness :
    (⟨js "acc1", js "gi:daily-note", DataEntry.ok (1 : Nat) 0⟩ :
        DataUpdate Nat).accountId
      = (⟨js "ctx1", js "acc1", [js "gi:daily-note"]⟩ :
        Registration).accountId
    ∧ (⟨js "acc1", js "gi:daily-note", DataEntry.ok (1 : Nat) 0⟩ :
        DataUpdate Nat).dataType
      ∈ (⟨js "ctx1", js "acc1", [js "gi:daily-note"]⟩ :
        Registration).dataTypes :=
  (listener_updates_match_subscription
      { initialState Nat with
        registrations := [(js "ctx1",
          ⟨js "ctx1", js "acc1", [js "gi:daily-note"]⟩)] }
      ⟨js "ctx2", js "acc1", [js "gi:daily-note"]⟩
      (js "acc1") (js "gi:daily-note") (DataEntry.ok 1 0)
      ⟨js "ctx1", js "acc1", [js "gi:daily-note"]⟩
      ⟨js "acc1", js "gi:daily-note", DataEntry.ok 1 0⟩).2.1
    (by decide)

-- ─── Diff-pass helper lemmas ─────────────────────────────────────

theorem deletedAccountIds_eq_nil (old nw : List (JsString × HoyoAccount))
    (h : ∀ id ∈ mapKeys old, mapContains nw id = true) :
    deletedAccountIds old nw = [] := by
  unfold deletedAccountIds
  rw [List.filter_eq_nil_iff]
  intro id hid
  simp [h id hid]

theorem authChangedIds_eq_nil (old nw : List (JsString × HoyoAccount))
    (h : ∀ p ∈ nw, ∀ acctOld, mapGet old p.1 = some acctOld →
      authEqual acctOld.auth p.2.auth = true) :
    authChangedIds old nw = [] := by
  unfold authChangedIds
  have hf : nw.filter (fun p =>
      match mapGet old p.1 with
      | none => false
      | some oldAccount => !authEqual oldAccount.auth p.2.auth) = [] := by
    rw [List.filter_eq_nil_iff]
    intro p hp
    cases hm : mapGet old p.1 with
    | none => simp
    | some o => simp [h p hp o hm]
  rw [hf]
  rfl

theorem mem_deletedAccountIds (old nw : List (JsString × HoyoAccount))
    (id : JsString) (h : id ∈ deletedAccountIds old nw) :
    id ∈ mapKeys old ∧ mapContains nw id = false := by
  unfold deletedAccountIds at h
  rw [List.mem_filter] at h
  exact ⟨h.1, by simpa using h.2⟩

theorem mem_authChangedIds (old nw : List (JsString × HoyoAccount))
    (id : JsString) (h : id ∈ authChangedIds old nw) :
    ∃ p ∈ nw, p.1 = id
      ∧ ∃ o, mapGet old p.1 = some o ∧ authEqual o.auth p.2.auth = false := by
  unfold authChangedIds mapKeys at h
  rw [List.mem_map] at h
  obtain ⟨p, hp, hid⟩ := h
  rw [List.mem_filter] at hp
  obtain ⟨hmem, hpred⟩ := hp
  cases hm : mapGet old p.1 with
  | none => rw [hm] at hpred; simp at hpred
  | some o =>
    rw [hm] at hpred
    exact ⟨p, hmem, hid, o, hm, by simpa using hpred⟩

theorem fetched_not_mem_renotifyAll {α : Type}
    (regs : List (JsString × Registration))
    (store : List (JsString × DataEntry α))
    (accountId game : JsString) (types : List JsString) :
    DCEvent.fetched accountId game types ∉ renotifyAll regs store := by
  intro h
  unfold renotifyAll at h
  rw [List.mem_flatMap] at h
  obtain ⟨reg2, _, hmem⟩ := h
  rw [List.mem_filterMap] at hmem
  obtain ⟨dt, _, hmap⟩ := hmem
  obtain ⟨e, _, heq⟩ := Option.map_eq_some'.mp hmap
  exact DCEvent.noConfusion heq

theorem renotifyAll_complete {α : Type}
    (regs : List (JsString × Registration))
    (store : List (JsString × DataEntry α)) (r : Registration)
    (dt : JsString) (e : DataEntry α)
    (hr : r ∈ mapValues regs) (hdt : dt ∈ r.dataTypes)
    (hget : mapGet store (buildStoreKey r.accountId dt) = some e) :
    DCEvent.delivered r ⟨r.accountId, dt, e⟩ ∈ renotifyAll regs store := by
  unfold renotifyAll
  rw [List.mem_flatMap]
  refine ⟨r, hr, List.mem_filterMap.mpr ⟨dt, hdt, ?_⟩⟩
  rw [hget]
  rfl

-- ─── Claim C8 ────────────────────────────────────────────────────

/-- Claim C8: when a configuration change leaves the account set and
every credential field unchanged and alters at least one of the four
rendering preferences (the animation-disable flag, or the banner badge
position, layout, or font size), the diff pass leaves the cache store,
client cache and registrations untouched, performs zero fetch
operations, and re-delivers every currently-cached entry to every
registration whose `accountId` and `dataTypes` match it. -/
theorem preference_only_change_renotifies {α : Type} (st : DCState α)
    (settings : GlobalSettings)
    (hkeys : ∀ id ∈ mapKeys (st.previousAccounts.getD []),
      mapContains (settings.accounts.getD []) id = true)
    (hauth : ∀ p ∈ settings.accounts.getD [], ∀ acctOld,
      mapGet (st.previousAccounts.getD []) p.1 = some acctOld →
      authEqual acctOld.auth p.2.auth = true)
    (hpref : settings.disableAnimations.getD false ≠ st.previousDisableAnimations
      ∨ settings.bannerBadgePosition.getD (js "center")
          ≠ st.previousBannerBadgePosition
      ∨ settings.bannerBadgeLayout.getD (js "horizontal")
          ≠ st.previousBannerBadgeLayout
      ∨ settings.bannerBadgeFontSize.getD 18
          ≠ st.previousBannerBadgeFontSize) :
    (onGlobalSettingsChanged st settings).1.store = st.store
    ∧ (onGlobalSettingsChanged st settings).1.clientCache = st.clientCache
    ∧ (onGlobalSettingsChanged st settings).1.registrations = st.registrations
    ∧ (onGlobalSettingsChanged st settings).2
        = renotifyAll st.registrations st.store
    ∧ (∀ (accountId game : JsString) (types : List JsString),
        DCEvent.fetched accountId game types
          ∉ (onGlobalSettingsChanged st settings).2)
    ∧ (∀ (r : Registration) (dt : JsString) (e : DataEntry α),
        r ∈ mapValues st.registrations → dt ∈ r.dataTypes →
        mapGet st.store (buildStoreKey r.accountId dt) = some e →
        DCEvent.delivered r ⟨r.accountId, dt, e⟩
          ∈ (onGlobalSettingsChanged st settings).2) := by
  have hd := deletedAccountIds_eq_nil (st.previousAccounts.getD [])
    (settings.accounts.getD []) hkeys
  have hc := authChangedIds_eq_nil (st.previousAccounts.getD [])
    (settings.accounts.getD []) hauth
  have h1 : (onGlobalSettingsChanged st settings).1.store = st.store := by
    simp only [onGlobalSettingsChanged, hd, hc, List.foldl_nil]
  have h2 : (onGlobalSettingsChanged st settings).1.clientCache
      = st.clientCache := by
    simp only [onGlobalSettingsChanged, hd, hc, List.foldl_nil]
  have h3 : (onGlobalSettingsChanged st settings).1.registrations
      = st.registrations := by
    simp only [onGlobalSettingsChanged, hd, hc, List.foldl_nil]
  have h4 : (onGlobalSettingsChanged st settings).2
      = renotifyAll st.registrations st.store := by
    simp only [onGlobalSettingsChanged, hd, hc, List.foldl_nil, List.map_nil,
      List.nil_append]
    split
    · rfl
    · next hcond =>
      exfalso
      simp only [Bool.or_eq_true, bne_iff_ne, not_or, ne_eq, not_not] at hcond
      rcases hpref with h | h | h | h
      · exact h hcond.1
      · exact h hcond.2.1.1
      · exact h hcond.2.1.2
      · exact h hcond.2.2
  refine ⟨h1, h2, h3, h4, ?_, ?_⟩
  · intro accountId game types
    rw [h4]
    exact fetched_not_mem_renotifyAll st.registrations st.store accountId game types
  · intro r dt e hr hdt hget
    rw [h4]
    exact renotifyAll_complete st.registrations st.store r dt e hr hdt hget

/-- An account on `"acc1"` with the first sample credentials. -/
def acctOne : HoyoAccount := ⟨js "acc1", js "Main", sampleAuth, js "valid", []⟩

/-- An account on `"acc2"` with the first sample credentials. -/
def acctTwo : HoyoAccount := ⟨js "acc2", js "Alt", sampleAuth, js "valid", []⟩

/-- `acctTwo` after a credential change. -/
def acctTwoChanged : HoyoAccount :=
  ⟨js "acc2", js "Alt", sampleAuth2, js "valid", []⟩

/-- A state with a cached entry and a registration for `"acc1"`, whose
previous snapshot holds `acctOne`. -/
def prefState : DCState Nat :=
  { initialState Nat with
    store := [(buildStoreKey (js "acc1") (js "gi:daily-note"), .ok 1 0)]
    registrations := [(js "ctx1",
      ⟨js "ctx1", js "acc1", [js "gi:daily-note"]⟩)]
    previousAccounts := some [(js "acc1", acctOne)] }

/-- A settings snapshot identical to `prefState`'s accounts but flipping
the animation-disable preference. -/
def prefSettings : GlobalSettings :=
  ⟨some [(js "acc1", acctOne)], none, none, none, some true⟩

/-- Witness for C8: flipping only `disableAnimations` replays the cached
entries and leaves the store untouched. -/
theorem preference_only_change_renotifies_witness :
    (onGlobalSettingsChanged prefState prefSettings).2
      = renotifyAll prefState.registrations prefState.store
    ∧ (onGlobalSettingsChanged prefState prefSettings).1.store
      = prefState.store :=
  have h := preference_only_change_renotifies prefState prefSettings
    (by decide) (by decide) (by decide)
  ⟨h.2.2.2.1, h.1⟩

-- ─── Claim C7 ────────────────────────────────────────────────────

theorem invalidateAccount_store_frame {α : Type} (s : DCState α)
    (c a dt : JsString) (hc : colonFree c = true) (ha : colonFree a = true)
    (hne : c ≠ a) :
    mapGet (invalidateAccount s c).store (buildStoreKey a dt)
      = mapGet s.store (buildStoreKey a dt) := by
  show mapGet (s.store.filter (fun p => !startsWith p.1 (c ++ [':'])))
    (buildStoreKey a dt) = mapGet s.store (buildStoreKey a dt)
  have h := mapGet_filter_key (fun k => !startsWith k (c ++ [':']))
    s.store (buildStoreKey a dt)
  rw [h]
  simp [buildStoreKey, startsWith_key_ne c a dt hc ha hne]

theorem invalidateAccount_client_frame {α : Type} (s : DCState α)
    (c a : JsString) (hne : c ≠ a) :
    mapGet (invalidateAccount s c).clientCache a = mapGet s.clientCache a := by
  show mapGet (mapDelete s.clientCache c) a = mapGet s.clientCache a
  rw [mapGet_mapDelete]
  simp [hne]

theorem foldl_invalidate_frame {α : Type} (a dt : JsString)
    (ha : colonFree a = true) :
    ∀ (ids : List JsString) (s : DCState α),
      (∀ id ∈ ids, colonFree id = true ∧ id ≠ a) →
      mapGet (ids.foldl invalidateAccount s).store (buildStoreKey a dt)
        = mapGet s.store (buildStoreKey a dt)
      ∧ mapGet (ids.foldl invalidateAccount s).clientCache a
        = mapGet s.clientCache a := by
  intro ids
  induction ids with
  | nil => exact fun s _ => ⟨rfl, rfl⟩
  | cons c cs ih =>
    intro s hall
    have hcz := hall c (List.mem_cons_self c cs)
    have hrest : ∀ id ∈ cs, colonFree id = true ∧ id ≠ a :=
      fun id hid => hall id (List.mem_cons_of_mem c hid)
    have hstep := ih (invalidateAccount s c) hrest
    rw [List.foldl_cons]
    refine ⟨?_, ?_⟩
    · rw [hstep.1, invalidateAccount_store_frame s c a dt hcz.1 ha hcz.2]
    · rw [hstep.2, invalidateAccount_client_frame s c a hcz.2]

/-- Sample colliding accounts: `"a"` and `"a:x"`. -/
def acctShort : HoyoAccount := ⟨js "a", js "A", sampleAuth, js "valid", []⟩

/-- The account whose id extends `acctShort`'s by a colon suffix. -/
def acctColliding : HoyoAccount := ⟨js "a:x", js "B", sampleAuth2, js "valid", []⟩

/-- A state caching an entry for `"a:x"` whose previous snapshot holds
both `"a"` and `"a:x"`. -/
def collisionDiffState : DCState Nat :=
  { initialState Nat with
    store := [(buildStoreKey (js "a:x") (js "gi:daily-note"), .ok 2 20)]
    previousAccounts := some [(js "a", acctShort), (js "a:x", acctColliding)] }

/-- A settings snapshot deleting `"a"` and keeping `"a:x"` byte-for-byte
unchanged. -/
def collisionDiffSettings : GlobalSettings :=
  ⟨some [(js "a:x", acctColliding)], none, none, none, none⟩

/-- Counterexample to claim C7: the account `"a:x"` is present in both
snapshots with all six credential fields unchanged, yet the diff pass
deletes its cached entry, because invalidating the deleted account `"a"`
removes every store key with the string prefix `"a:"` — including
`"a:x:gi:daily-note"`. -/
theorem diff_pass_collision_counterexample :
    authEqual acctColliding.auth acctColliding.auth = true
    ∧ mapGet (collisionDiffState.previousAccounts.getD []) (js "a:x")
        = some acctColliding
    ∧ mapGet (collisionDiffSettings.accounts.getD []) (js "a:x")
        = some acctColliding
    ∧ mapGet collisionDiffState.store
        (buildStoreKey (js "a:x") (js "gi:daily-note"))
      = some (DataEntry.ok 2 20)
    ∧ mapGet (onGlobalSettingsChanged collisionDiffState
          collisionDiffSettings).1.store
        (buildStoreKey (js "a:x") (js "gi:daily-note"))
      = none := by
  refine ⟨by decide, by decide, by decide, by decide, by decide⟩

/-- Claim C7, amended: for every account A present in both snapshots
with all six credential fields unchanged, the debounced diff pass leaves
every cached entry for A and A's cached client unmodified — provided the
account ids in both snapshots contain no `':'` separator (true of the
repository's UUID v4 ids; the counterexample shows the claim fails for
colon-extending ids) and the new snapshot's keys are distinct (as
JavaScript object keys are). -/
theorem diff_pass_preserves_unchanged_account {α : Type} (st : DCState α)
    (settings : GlobalSettings) (a dt : JsString)
    (acctOldSnap acctNewSnap : HoyoAccount)
    (ha : colonFree a = true)
    (hOld : ∀ p ∈ st.previousAccounts.getD [], colonFree p.1 = true)
    (hNew : ∀ p ∈ settings.accounts.getD [], colonFree p.1 = true)
    (hnd : (mapKeys (settings.accounts.getD [])).Nodup)
    (hGetOld : mapGet (st.previousAccounts.getD []) a = some acctOldSnap)
    (hGetNew : mapGet (settings.accounts.getD []) a = some acctNewSnap)
    (hEq : authEqual acctOldSnap.auth acctNewSnap.auth = true) :
    mapGet (onGlobalSettingsChanged st settings).1.store (buildStoreKey a dt)
      = mapGet st.store (buildStoreKey a dt)
    ∧ mapGet (onGlobalSettingsChanged st settings).1.clientCache a
      = mapGet st.clientCache a := by
  have hdel : ∀ id ∈ deletedAccountIds (st.previousAccounts.getD [])
      (settings.accounts.getD []), colonFree id = true ∧ id ≠ a := by
    intro id hid
    have hm := mem_deletedAccountIds _ _ id hid
    constructor
    · obtain ⟨p, hp, hpid⟩ := List.mem_map.mp hm.1
      exact hpid ▸ hOld p hp
    · intro heq
      subst heq
      have hcon : mapContains (settings.accounts.getD []) id = true := by
        simp [mapContains, hGetNew]
      rw [hcon] at hm
      exact Bool.noConfusion hm.2
  have hchg : ∀ id ∈ authChangedIds (st.previousAccounts.getD [])
      (settings.accounts.getD []), colonFree id = true ∧ id ≠ a := by
    intro id hid
    obtain ⟨p, hp, hpid, o, hgo, hneq⟩ := mem_authChangedIds _ _ id hid
    constructor
    · exact hpid ▸ hNew p hp
    · intro heq
      subst heq
      have hp2 : p.2 = acctNewSnap := by
        have hg := mapGet_eq_of_mem_of_nodup _ hnd p hp
        rw [hpid, hGetNew] at hg
        exact (Option.some.inj hg).symm
      have ho : o = acctOldSnap := by
        rw [hpid, hGetOld] at hgo
        exact (Option.some.inj hgo).symm
      rw [ho, hp2, hEq] at hneq
      exact Bool.noConfusion hneq
  have hframe1 := foldl_invalidate_frame a dt ha
    (deletedAccountIds (st.previousAccounts.getD []) (settings.accounts.getD []))
    { st with previousAccounts := some (settings.accounts.getD []) } hdel
  have hframe2 := foldl_invalidate_frame a dt ha
    (authChangedIds (st.previousAccounts.getD []) (settings.accounts.getD []))
    ((deletedAccountIds (st.previousAccounts.getD [])
        (settings.accounts.getD [])).foldl invalidateAccount
      { st with previousAccounts := some (settings.accounts.getD []) }) hchg
  constructor
  · show mapGet (onGlobalSettingsChanged st settings).1.store
      (buildStoreKey a dt) = mapGet st.store (buildStoreKey a dt)
    simp only [onGlobalSettingsChanged]
    rw [hframe2.1, hframe1.1]
  · show mapGet (onGlobalSettingsChanged st settings).1.clientCache a
      = mapGet st.clientCache a
    simp only [onGlobalSettingsChanged]
    rw [hframe2.2, hframe1.2]

/-- Witness for the amended C7: a diff pass that invalidates the
credential-changed account `"acc2"` leaves the unchanged account
`"acc1"`'s cached entry in place. -/
theorem diff_pass_preserves_unchanged_account_witness :
    mapGet (onGlobalSettingsChanged
        { initialState Nat with
          store := [(buildStoreKey (js "acc1") (js "gi:daily-note"), .ok 1 0)]
          previousAccounts := some [(js "acc1", acctOne), (js "acc2", acctTwo)] }
        ⟨some [(js "acc1", acctOne), (js "acc2", acctTwoChanged)],
          none, none, none, none⟩).1.store
      (buildStoreKey (js "acc1") (js "gi:daily-note"))
    = mapGet
        ({ initialState Nat with
          store := [(buildStoreKey (js "acc1") (js "gi:daily-note"), .ok 1 0)]
          previousAccounts := some [(js "acc1", acctOne), (js "acc2", acctTwo)] } :
          DCState Nat).store
      (buildStoreKey (js "acc1") (js "gi:daily-note")) :=
  (diff_pass_preserves_unchanged_account
      { initialState Nat with
        store := [(buildStoreKey (js "acc1") (js "gi:daily-note"), .ok 1 0)]
        previousAccounts := some [(js "acc1", acctOne), (js "acc2", acctTwo)] }
      ⟨some [(js "acc1", acctOne), (js "acc2", acctTwoChanged)],
        none, none, none, none⟩
      (js "acc1") (js "gi:daily-note") acctOne acctOne
      (by decide) (by decide) (by decide) (by decide) (by decide) (by decide)
      (by decide)).1

end HoyoDeck
